import Mathlib

/-!
Shallow embedding of the ConjecTuring module (conjecturing.py): four bounded
conjecture-checking searches over a lazy candidate source.

Modelling conventions:
* A Python object is a value of type `Option α`: `none` models the Python
  value None, `some a` models any other object.
* The candidate generator is a list of objects; `next(generator)` pulls the
  head and raises StopIteration (`PyErr.stopIteration`) when the list is empty.
* Fallible computation is `Except PyErr`; the Python builtin `int` applied to
  a character sequence is modelled by `py_int` below, which raises ValueError
  (`PyErr.valueError`) on non-numeric input such as the letters i, n, f.
* Each top-level search returns, on success, the Python return value together
  with the unconsumed remainder of the generator and the list of arguments
  passed to the progress-bar update calls, in order.  The `show_progress`
  parameter is accepted and, exactly as in the source, never read.
-/

inductive PyErr : Type where
  | valueError
  | stopIteration
deriving DecidableEq

/-- Accumulating decimal-digit parser for `py_int`: consumes characters while
they are digits, failing on the first non-digit; `none` accumulator means no
digit has been seen yet, so an empty digit string fails. -/
def digitsVal : List Char → Option Nat → Option Nat
  | [], acc => acc
  | c :: cs, acc =>
      if c.isDigit then
        match acc with
        | none => digitsVal cs (some (c.toNat - 48))
        | some a => digitsVal cs (some (a * 10 + (c.toNat - 48)))
      else none

/-- Models the Python builtin `int` applied to a string, given as its character
list: an optional sign followed by at least one decimal digit parses to that
integer; any other content raises ValueError.  In particular the sentinel
initializations of the source, which apply `int` to the three letters i, n, f
(optionally preceded by a minus sign), raise ValueError. -/
def py_int (cs : List Char) : Except PyErr Int :=
  match cs with
  | '-' :: rest =>
      match digitsVal rest none with
      | some v => Except.ok (-(v : Int))
      | none => Except.error PyErr.valueError
  | '+' :: rest =>
      match digitsVal rest none with
      | some v => Except.ok ((v : Int))
      | none => Except.error PyErr.valueError
  | _ =>
      match digitsVal cs none with
      | some v => Except.ok ((v : Int))
      | none => Except.error PyErr.valueError

/-- The list of batch sizes computed identically in all four search functions:
`n mod 100` batches of size `n div 100 + 1` followed by the remaining batches
of size `n div 100`, with the hard-coded update ratio of 100. -/
def listOfBatches (n : Nat) : List Nat :=
  List.replicate (n % 100) (n / 100 + 1) ++ List.replicate (100 - n % 100) (n / 100)

/-- The local function `compute_batch` of `find_counterexample`: pulls up to
`length` candidates one at a time, returning the first one failing the
condition, or the Python value None when the whole batch passes. -/
def computeBatchFind {α : Type} (condition : Option α → Bool) :
    Nat → List (Option α) → Except PyErr (Option α × List (Option α))
  | 0, gen => Except.ok (none, gen)
  | _ + 1, [] => Except.error PyErr.stopIteration
  | len + 1, x :: gen =>
      if condition x then computeBatchFind condition len gen
      else Except.ok (x, gen)

/-- The batch loop of `find_counterexample`: runs `compute_batch` on each batch
size in turn, updating the progress bar after each batch, and returns early as
soon as a batch result is not the Python value None. -/
def findLoop {α : Type} (condition : Option α → Bool) :
    List Nat → List (Option α) → Except PyErr (Option α × List (Option α) × List Nat)
  | [], gen => Except.ok (none, gen, [])
  | b :: bs, gen =>
      match computeBatchFind condition b gen with
      | Except.error e => Except.error e
      | Except.ok (res, gen1) =>
          if res.isSome then Except.ok (res, gen1, [b])
          else
            match findLoop condition bs gen1 with
            | Except.error e => Except.error e
            | Except.ok (r, g, t) => Except.ok (r, g, b :: t)

/-- `find_counterexample(n, condition, generator, show_progress)`. -/
def find_counterexample {α : Type} (n : Nat) (condition : Option α → Bool)
    (generator : List (Option α)) ( show_progress : Bool) :
    Except PyErr (Option α × List (Option α) × List Nat) :=
  findLoop condition (listOfBatches n) generator

/-- The local function `compute_batch` of `count_counterexamples`: pulls exactly
`length` candidates and tallies those failing the condition. -/
def computeBatchCount {α : Type} (condition : Option α → Bool) :
    Nat → List (Option α) → Except PyErr (Nat × List (Option α))
  | 0, gen => Except.ok (0, gen)
  | _ + 1, [] => Except.error PyErr.stopIteration
  | len + 1, x :: gen =>
      match computeBatchCount condition len gen with
      | Except.error e => Except.error e
      | Except.ok (c, g) => Except.ok ((if condition x then c else c + 1), g)

/-- The batch loop of `count_counterexamples`: sums the per-batch tallies over
all batches, updating the progress bar after each batch. -/
def countLoop {α : Type} (condition : Option α → Bool) :
    List Nat → List (Option α) → Except PyErr (Nat × List (Option α) × List Nat)
  | [], gen => Except.ok (0, gen, [])
  | b :: bs, gen =>
      match computeBatchCount condition b gen with
      | Except.error e => Except.error e
      | Except.ok (c, g) =>
          match countLoop condition bs g with
          | Except.error e => Except.error e
          | Except.ok (total, g2, t) => Except.ok (c + total, g2, b :: t)

/-- `count_counterexamples(n, condition, generator, show_progress)`. -/
def count_counterexamples {α : Type} (n : Nat) (condition : Option α → Bool)
    (generator : List (Option α)) ( show_progress : Bool) :
    Except PyErr (Nat × List (Option α) × List Nat) :=
  countLoop condition (listOfBatches n) generator

/-- Body of the candidate loop in the local `compute_batch` of
`smallest_counterexample`, after its sentinel has been initialized: threads the
running best counterexample and its weight through the batch, updating on a
strictly smaller weight. -/
def smallestBatchGo {α : Type} (condition : Option α → Bool)
    (get_object_weight : Option α → Int) :
    Nat → List (Option α) → Option α → Int → Except PyErr (Option α × Int × List (Option α))
  | 0, gen, best, bw => Except.ok (best, bw, gen)
  | _ + 1, [], _, _ => Except.error PyErr.stopIteration
  | len + 1, x :: gen, best, bw =>
      if condition x then smallestBatchGo condition get_object_weight len gen best bw
      else
        if get_object_weight x < bw then
          smallestBatchGo condition get_object_weight len gen x (get_object_weight x)
        else smallestBatchGo condition get_object_weight len gen best bw

/-- The local `compute_batch` of `smallest_counterexample`: initializes the
local best to the Python value None with sentinel weight `int` of the letters
i, n, f, then scans the batch. -/
def computeBatchSmallest {α : Type} (condition : Option α → Bool)
    (get_object_weight : Option α → Int) (length : Nat) (gen : List (Option α)) :
    Except PyErr (Option α × Int × List (Option α)) :=
  match py_int [ 'i', 'n', 'f' ] with
  | Except.error e => Except.error e
  | Except.ok w => smallestBatchGo condition get_object_weight length gen none w

/-- The batch loop of `smallest_counterexample`: folds the per-batch best into
the global best using a strict less-than comparison of weights. -/
def smallestLoop {α : Type} (condition : Option α → Bool)
    (get_object_weight : Option α → Int) :
    List Nat → List (Option α) → Option α → Int →
      Except PyErr (Option α × List (Option α) × List Nat)
  | [], gen, best, _ => Except.ok (best, gen, [])
  | b :: bs, gen, best, bw =>
      match computeBatchSmallest condition get_object_weight b gen with
      | Except.error e => Except.error e
      | Except.ok (lb, lw, g) =>
          match smallestLoop condition get_object_weight bs g
              (if lw < bw then lb else best) (if lw < bw then lw else bw) with
          | Except.error e => Except.error e
          | Except.ok (r, g2, t) => Except.ok (r, g2, b :: t)

/-- `smallest_counterexample(n, condition, generator, get_object_weight,
show_progress)`: initializes the global best to the Python value None with the
sentinel weight `int` of the letters i, n, f, then runs the batch loop. -/
def smallest_counterexample {α : Type} (n : Nat) (condition : Option α → Bool)
    (generator : List (Option α)) (get_object_weight : Option α → Int)
    ( show_progress : Bool) : Except PyErr (Option α × List (Option α) × List Nat) :=
  match py_int [ 'i', 'n', 'f' ] with
  | Except.error e => Except.error e
  | Except.ok w => smallestLoop condition get_object_weight (listOfBatches n) generator none w

/-- Body of the candidate loop in the local `compute_batch` of
`greatest_counterexample`: same shape as the smallest variant with a strict
greater-than comparison. -/
def greatestBatchGo {α : Type} (condition : Option α → Bool)
    (get_object_weight : Option α → Int) :
    Nat → List (Option α) → Option α → Int → Except PyErr (Option α × Int × List (Option α))
  | 0, gen, best, bw => Except.ok (best, bw, gen)
  | _ + 1, [], _, _ => Except.error PyErr.stopIteration
  | len + 1, x :: gen, best, bw =>
      if condition x then greatestBatchGo condition get_object_weight len gen best bw
      else
        if get_object_weight x > bw then
          greatestBatchGo condition get_object_weight len gen x (get_object_weight x)
        else greatestBatchGo condition get_object_weight len gen best bw

/-- The local `compute_batch` of `greatest_counterexample`: sentinel weight is
`int` of a minus sign followed by the letters i, n, f. -/
def computeBatchGreatest {α : Type} (condition : Option α → Bool)
    (get_object_weight : Option α → Int) (length : Nat) (gen : List (Option α)) :
    Except PyErr (Option α × Int × List (Option α)) :=
  match py_int [ '-', 'i', 'n', 'f' ] with
  | Except.error e => Except.error e
  | Except.ok w => greatestBatchGo condition get_object_weight length gen none w

/-- The batch loop of `greatest_counterexample`. -/
def greatestLoop {α : Type} (condition : Option α → Bool)
    (get_object_weight : Option α → Int) :
    List Nat → List (Option α) → Option α → Int →
      Except PyErr (Option α × List (Option α) × List Nat)
  | [], gen, best, _ => Except.ok (best, gen, [])
  | b :: bs, gen, best, bw =>
      match computeBatchGreatest condition get_object_weight b gen with
      | Except.error e => Except.error e
      | Except.ok (lb, lw, g) =>
          match greatestLoop condition get_object_weight bs g
              (if lw > bw then lb else best) (if lw > bw then lw else bw) with
          | Except.error e => Except.error e
          | Except.ok (r, g2, t) => Except.ok (r, g2, b :: t)

/-- `greatest_counterexample(n, condition, generator, get_object_weight,
show_progress)`. -/
def greatest_counterexample {α : Type} (n : Nat) (condition : Option α → Bool)
    (generator : List (Option α)) (get_object_weight : Option α → Int)
    ( show_progress : Bool) : Except PyErr (Option α × List (Option α) × List Nat) :=
  match py_int [ '-', 'i', 'n', 'f' ] with
  | Except.error e => Except.error e
  | Except.ok w => greatestLoop condition get_object_weight (listOfBatches n) generator none w

/-- Specification-side definition for the refinement claim about
`find_counterexample` (C8), following the spec words: an unbatched
left-to-right scan of the first n candidates for the first one failing the
predicate, yielding None when all of them pass. -/
def unbatchedScan {α : Type} (condition : Option α → Bool) (n : Nat)
    (generator : List (Option α)) : Option α :=
  match (generator.take n).find? (fun x => !condition x) with
  | some x => x
  | none => none

/- Concrete data used by witnesses and counterexamples. -/

/-- Condition true exactly on even numbers (and on None). -/
def isEven : Option Nat → Bool
  | some k => k % 2 == 0
  | none => true

/-- Condition false exactly on the Python value None. -/
def isSomeCond : Option Nat → Bool := fun x => x.isSome

/-- Condition failing every candidate. -/
def constFalse : Option Nat → Bool := fun _ => false

/-- Condition passing every candidate. -/
def allTrue : Option Nat → Bool := fun _ => true

/-- Weight of a number is itself; None has weight 0. -/
def idWeight : Option Nat → Int
  | some k => (k : Int)
  | none => 0

/-- The candidates 0 through 9. -/
def sampleGen : List (Option Nat) :=
  [some 0, some 1, some 2, some 3, some 4, some 5, some 6, some 7, some 8, some 9]

/-- A source with only three candidates. -/
def shortGen : List (Option Nat) := [some 0, some 1, some 2]

/- Generic list helpers. -/

lemma mem_take_mono {β : Type} {l : List β} {m k : Nat} {x : β} (h : m ≤ k)
    (hx : x ∈ l.take m) : x ∈ l.take k := by
  have h2 : (l.take k).take m = l.take m := by
    rw [List.take_take, min_eq_left h]
  rw [← h2] at hx
  exact List.take_subset _ _ hx

lemma mem_take_drop {β : Type} {l : List β} {m s : Nat} {x : β}
    (hx : x ∈ (l.drop m).take s) : x ∈ l.take (m + s) := by
  rw [List.take_add]
  exact List.mem_append.mpr (Or.inr hx)

lemma dropWhile_append_nil {β : Type} {p : β → Bool} {l1 l2 : List β}
    (h : l1.dropWhile p = []) : (l1 ++ l2).dropWhile p = l2.dropWhile p := by
  induction l1 with
  | nil => simp
  | cons a t ih =>
      by_cases ha : p a
      · rw [List.dropWhile_cons, if_pos ha] at h
        rw [List.cons_append, List.dropWhile_cons, if_pos ha]
        exact ih h
      · rw [List.dropWhile_cons, if_neg ha] at h
        exact absurd h (by simp)

lemma takeWhile_append_nil {β : Type} {p : β → Bool} {l1 l2 : List β}
    (h : l1.dropWhile p = []) : (l1 ++ l2).takeWhile p = l1 ++ l2.takeWhile p := by
  induction l1 with
  | nil => simp
  | cons a t ih =>
      by_cases ha : p a
      · rw [List.dropWhile_cons, if_pos ha] at h
        rw [List.cons_append, List.takeWhile_cons, if_pos ha, ih h, List.cons_append]
      · rw [List.dropWhile_cons, if_neg ha] at h
        exact absurd h (by simp)

lemma dropWhile_append_cons {β : Type} {p : β → Bool} {l1 l2 : List β} {x : β} {r : List β}
    (h : l1.dropWhile p = x :: r) : (l1 ++ l2).dropWhile p = x :: (r ++ l2) := by
  induction l1 with
  | nil => simp at h
  | cons a t ih =>
      by_cases ha : p a
      · rw [List.dropWhile_cons, if_pos ha] at h
        rw [List.cons_append, List.dropWhile_cons, if_pos ha]
        exact ih h
      · rw [List.dropWhile_cons, if_neg ha] at h
        obtain ⟨rfl, rfl⟩ : a = x ∧ t = r := by
          exact ⟨(List.cons.injEq ..).mp h |>.1, (List.cons.injEq ..).mp h |>.2⟩
        rw [List.cons_append, List.dropWhile_cons, if_neg ha]

lemma takeWhile_append_cons {β : Type} {p : β → Bool} {l1 l2 : List β} {x : β} {r : List β}
    (h : l1.dropWhile p = x :: r) : (l1 ++ l2).takeWhile p = l1.takeWhile p := by
  induction l1 with
  | nil => simp at h
  | cons a t ih =>
      by_cases ha : p a
      · rw [List.dropWhile_cons, if_pos ha] at h
        rw [List.cons_append, List.takeWhile_cons, if_pos ha, ih h, List.takeWhile_cons,
          if_pos ha]
      · rw [List.dropWhile_cons, if_neg ha] at h
        rw [List.cons_append, List.takeWhile_cons, if_neg ha, List.takeWhile_cons, if_neg ha]

lemma dropWhile_head_false {β : Type} {p : β → Bool} {l : List β} {x : β} {r : List β}
    (h : l.dropWhile p = x :: r) : p x = false := by
  induction l with
  | nil => simp at h
  | cons a t ih =>
      by_cases ha : p a
      · rw [List.dropWhile_cons, if_pos ha] at h
        exact ih h
      · rw [List.dropWhile_cons, if_neg ha] at h
        have hax : a = x := ((List.cons.injEq ..).mp h).1
        rw [← hax]
        exact Bool.eq_false_iff.mpr ha

lemma mem_of_dropWhile_cons {β : Type} {p : β → Bool} {l : List β} {x : β} {r : List β}
    (h : l.dropWhile p = x :: r) : x ∈ l := by
  have hx : x ∈ l.dropWhile p := by
    rw [h]; exact List.mem_cons_self x r
  exact (List.dropWhile_sublist p).subset hx

lemma find_not_eq_head_dropWhile {β : Type} (p : β → Bool) (l : List β) :
    l.find? (fun x => !p x) = (l.dropWhile p).head? := by
  induction l with
  | nil => rfl
  | cons a t ih =>
      by_cases ha : p a
      · rw [List.find?_cons_of_neg t (by simp [ha]), List.dropWhile_cons, if_pos ha]
        exact ih
      · rw [List.find?_cons_of_pos t (by simp [ha]), List.dropWhile_cons, if_neg ha,
          List.head?_cons]

/- Facts about the batch plan. -/

lemma listOfBatches_length (n : Nat) : (listOfBatches n).length = 100 := by
  have hr : n % 100 < 100 := Nat.mod_lt _ (by norm_num)
  simp only [listOfBatches, List.length_append, List.length_replicate]
  omega

lemma listOfBatches_sum (n : Nat) : (listOfBatches n).sum = n := by
  have hr : n % 100 < 100 := Nat.mod_lt _ (by norm_num)
  simp only [listOfBatches, List.sum_append, List.sum_replicate, smul_eq_mul]
  have key : n % 100 * (n / 100 + 1) + (100 - n % 100) * (n / 100)
      = n % 100 + (n % 100 + (100 - n % 100)) * (n / 100) := by ring
  rw [key, Nat.add_sub_cancel' (le_of_lt hr)]
  omega

lemma pairwise_ge_replicate {x : Nat} : ∀ m : Nat,
    List.Pairwise (fun a b => b ≤ a) (List.replicate m x)
  | 0 => List.Pairwise.nil
  | m + 1 => by
      rw [List.replicate_succ]
      exact List.Pairwise.cons
        (fun y hy => by rw [List.eq_of_mem_replicate hy]) (pairwise_ge_replicate m)

/- Behavior of the counting search. -/

lemma computeBatchCount_ok {α : Type} (condition : Option α → Bool) :
    ∀ (len : Nat) (gen : List (Option α)), len ≤ gen.length →
      computeBatchCount condition len gen =
        Except.ok (List.countP (fun x => !condition x) (gen.take len), gen.drop len) := by
  intro len
  induction len with
  | zero => intro gen _; simp [computeBatchCount]
  | succ k ih =>
      intro gen h
      match gen with
      | [] => simp at h
      | x :: g =>
          have hk : k ≤ g.length := by
            simp only [List.length_cons] at h; omega
          simp only [computeBatchCount, ih g hk]
          rw [List.take_succ_cons, List.drop_succ_cons, List.countP_cons]
          by_cases hc : condition x <;> simp [hc]

lemma computeBatchCount_short {α : Type} (condition : Option α → Bool) :
    ∀ (len : Nat) (gen : List (Option α)), gen.length < len →
      computeBatchCount condition len gen = Except.error PyErr.stopIteration := by
  intro len
  induction len with
  | zero => intro gen h; simp at h
  | succ k ih =>
      intro gen h
      match gen with
      | [] => simp [computeBatchCount]
      | x :: g =>
          have hk : g.length < k := by
            simp only [List.length_cons] at h; omega
          simp only [computeBatchCount, ih g hk]

lemma countLoop_ok {α : Type} (condition : Option α → Bool) :
    ∀ (bs : List Nat) (gen : List (Option α)), bs.sum ≤ gen.length →
      countLoop condition bs gen =
        Except.ok (List.countP (fun x => !condition x) (gen.take bs.sum),
          gen.drop bs.sum, bs) := by
  intro bs
  induction bs with
  | nil => intro gen _; simp [countLoop]
  | cons b bs ih =>
      intro gen h
      rw [List.sum_cons] at h
      have hb : b ≤ gen.length := by omega
      have hrec : bs.sum ≤ (gen.drop b).length := by
        rw [List.length_drop]; omega
      simp only [countLoop, computeBatchCount_ok condition b gen hb, ih (gen.drop b) hrec]
      rw [List.sum_cons, List.take_add, List.countP_append, List.drop_drop]

lemma countLoop_short {α : Type} (condition : Option α → Bool) :
    ∀ (bs : List Nat) (gen : List (Option α)), gen.length < bs.sum →
      countLoop condition bs gen = Except.error PyErr.stopIteration := by
  intro bs
  induction bs with
  | nil => intro gen h; simp at h
  | cons b bs ih =>
      intro gen h
      rw [List.sum_cons] at h
      by_cases hb : b ≤ gen.length
      · have hrec : (gen.drop b).length < bs.sum := by
          rw [List.length_drop]; omega
        simp only [countLoop, computeBatchCount_ok condition b gen hb, ih (gen.drop b) hrec]
      · simp only [countLoop, computeBatchCount_short condition b gen (by omega)]

/- Behavior of the first-counterexample search. -/

lemma computeBatchFind_clean {α : Type} (condition : Option α → Bool) :
    ∀ (len : Nat) (gen : List (Option α)), len ≤ gen.length →
      (∀ x ∈ gen.take len, condition x = true) →
      computeBatchFind condition len gen = Except.ok (none, gen.drop len) := by
  intro len
  induction len with
  | zero => intro gen _ _; simp [computeBatchFind]
  | succ k ih =>
      intro gen h hc
      match gen with
      | [] => simp at h
      | a :: g =>
          have ha : condition a = true := hc a (by
            rw [List.take_succ_cons]; exact List.mem_cons_self ..)
          have hk : k ≤ g.length := by
            simp only [List.length_cons] at h; omega
          have hcg : ∀ y ∈ g.take k, condition y = true := fun y hy =>
            hc y (by rw [List.take_succ_cons]; exact List.mem_cons_of_mem _ hy)
          show (if condition a then computeBatchFind condition k g else Except.ok (a, g)) = _
          rw [if_pos ha, List.drop_succ_cons]
          exact ih g hk hcg

lemma computeBatchFind_found {α : Type} (condition : Option α → Bool) :
    ∀ (len : Nat) (gen : List (Option α)) (x : Option α) (r : List (Option α)),
      len ≤ gen.length → (gen.take len).dropWhile condition = x :: r →
      computeBatchFind condition len gen =
        Except.ok (x, gen.drop (((gen.take len).takeWhile condition).length + 1)) := by
  intro len
  induction len with
  | zero => intro gen x r _ hd; simp at hd
  | succ k ih =>
      intro gen x r h hd
      match gen with
      | [] => simp at h
      | a :: g =>
          rw [List.take_succ_cons] at hd ⊢
          by_cases ha : condition a
          · rw [List.dropWhile_cons, if_pos ha] at hd
            have hk : k ≤ g.length := by
              simp only [List.length_cons] at h; omega
            show (if condition a then computeBatchFind condition k g else Except.ok (a, g)) = _
            rw [if_pos ha, List.takeWhile_cons, if_pos ha, List.length_cons,
              List.drop_succ_cons]
            exact ih g x r hk hd
          · rw [List.dropWhile_cons, if_neg ha] at hd
            obtain ⟨rfl, -⟩ := (List.cons.injEq ..).mp hd
            show (if condition a then computeBatchFind condition k g else Except.ok (a, g)) = _
            rw [if_neg ha, List.takeWhile_cons, if_neg ha, List.length_nil,
              List.drop_succ_cons, List.drop_zero]

lemma computeBatchFind_none {α : Type} (condition : Option α → Bool) :
    ∀ (len : Nat) (gen : List (Option α)), len ≤ gen.length →
      (∀ x ∈ gen.take len, condition x = false → x = none) →
      ∃ m, m ≤ len ∧ computeBatchFind condition len gen = Except.ok (none, gen.drop m) := by
  intro len
  induction len with
  | zero => intro gen _ _; exact ⟨0, Nat.le_refl 0, by simp [computeBatchFind]⟩
  | succ k ih =>
      intro gen h hall
      match gen with
      | [] => simp at h
      | a :: g =>
          have hk : k ≤ g.length := by
            simp only [List.length_cons] at h; omega
          by_cases ha : condition a
          · obtain ⟨m, hm, he⟩ := ih g hk (fun x hx hc =>
              hall x (by rw [List.take_succ_cons]; exact List.mem_cons_of_mem _ hx) hc)
            refine ⟨m + 1, by omega, ?_⟩
            show (if condition a then computeBatchFind condition k g else Except.ok (a, g)) = _
            rw [if_pos ha, List.drop_succ_cons]
            exact he
          · have hcf : condition a = false := Bool.eq_false_iff.mpr ha
            have hanone : a = none := hall a (by
              rw [List.take_succ_cons]; exact List.mem_cons_self ..) hcf
            refine ⟨1, by omega, ?_⟩
            show (if condition a then computeBatchFind condition k g else Except.ok (a, g)) = _
            rw [if_neg ha, List.drop_succ_cons, List.drop_zero, hanone]

lemma computeBatchFind_short {α : Type} (condition : Option α → Bool) :
    ∀ (len : Nat) (gen : List (Option α)), (∀ x ∈ gen, condition x = true) →
      gen.length < len →
      computeBatchFind condition len gen = Except.error PyErr.stopIteration := by
  intro len
  induction len with
  | zero => intro gen _ h; simp at h
  | succ k ih =>
      intro gen hall h
      match gen with
      | [] => simp [computeBatchFind]
      | a :: g =>
          have ha : condition a = true := hall a (List.mem_cons_self ..)
          show (if condition a then computeBatchFind condition k g else Except.ok (a, g)) = _
          rw [if_pos ha]
          exact ih g (fun x hx => hall x (List.mem_cons_of_mem _ hx)) (by
            simp only [List.length_cons] at h; omega)

lemma findLoop_clean {α : Type} (condition : Option α → Bool) :
    ∀ (bs : List Nat) (gen : List (Option α)), bs.sum ≤ gen.length →
      (∀ x ∈ gen.take bs.sum, condition x = true) →
      ∃ t, findLoop condition bs gen = Except.ok (none, gen.drop bs.sum, t) := by
  intro bs
  induction bs with
  | nil => intro gen _ _; exact ⟨[], by simp [findLoop]⟩
  | cons b bs ih =>
      intro gen h hc
      rw [List.sum_cons] at h hc
      have hb : b ≤ gen.length := by omega
      have hcb : ∀ x ∈ gen.take b, condition x = true := fun x hx =>
        hc x (mem_take_mono (Nat.le_add_right b bs.sum) hx)
      obtain ⟨t, ht⟩ := ih (gen.drop b) (by rw [List.length_drop]; omega)
        (fun x hx => hc x (mem_take_drop hx))
      refine ⟨b :: t, ?_⟩
      simp only [findLoop, computeBatchFind_clean condition b gen hb hcb, Option.isSome_none,
        Bool.false_eq_true, if_false, ht, List.sum_cons, List.drop_drop]

lemma findLoop_found {α : Type} (condition : Option α → Bool) :
    ∀ (bs : List Nat) (gen : List (Option α)) (x : Option α) (r : List (Option α)),
      bs.sum ≤ gen.length →
      (gen.take bs.sum).dropWhile condition = x :: r →
      x.isSome = true →
      ∃ t, findLoop condition bs gen =
        Except.ok (x, gen.drop (((gen.take bs.sum).takeWhile condition).length + 1), t) := by
  intro bs
  induction bs with
  | nil => intro gen x r _ hd _; simp at hd
  | cons b bs ih =>
      intro gen x r h hd hx
      rw [List.sum_cons] at h hd ⊢
      have hb : b ≤ gen.length := by omega
      rw [List.take_add] at hd ⊢
      cases h1 : (gen.take b).dropWhile condition with
      | cons y r1 =>
          rw [dropWhile_append_cons h1] at hd
          have hyx : y = x := ((List.cons.injEq ..).mp hd).1
          rw [hyx] at h1
          refine ⟨[b], ?_⟩
          simp only [findLoop, computeBatchFind_found condition b gen x r1 hb h1, hx, if_true]
          rw [takeWhile_append_cons h1]
      | nil =>
          have hcb : ∀ z ∈ gen.take b, condition z = true := List.dropWhile_eq_nil_iff.mp h1
          rw [dropWhile_append_nil h1] at hd
          obtain ⟨t, ht⟩ := ih (gen.drop b) x r (by rw [List.length_drop]; omega) hd hx
          refine ⟨b :: t, ?_⟩
          simp only [findLoop, computeBatchFind_clean condition b gen hb hcb, Option.isSome_none,
            Bool.false_eq_true, if_false, ht, List.drop_drop]
          rw [takeWhile_append_nil h1, List.length_append, List.length_take, min_eq_left hb]
          have harith : b + (((gen.drop b).take bs.sum).takeWhile condition).length + 1 =
              b + ((((gen.drop b).take bs.sum).takeWhile condition).length + 1) := by omega
          rw [harith]

lemma findLoop_none {α : Type} (condition : Option α → Bool) :
    ∀ (bs : List Nat) (gen : List (Option α)), bs.sum ≤ gen.length →
      (∀ x ∈ gen.take bs.sum, condition x = false → x = none) →
      ∃ k t, k ≤ bs.sum ∧ findLoop condition bs gen = Except.ok (none, gen.drop k, t) := by
  intro bs
  induction bs with
  | nil => intro gen _ _; exact ⟨0, [], Nat.le_refl 0, by simp [findLoop]⟩
  | cons b bs ih =>
      intro gen h hall
      rw [List.sum_cons] at h hall ⊢
      have hb : b ≤ gen.length := by omega
      obtain ⟨m, hm, he⟩ := computeBatchFind_none condition b gen hb (fun x hx hc =>
        hall x (mem_take_mono (Nat.le_add_right b bs.sum) hx) hc)
      obtain ⟨k, t, hk, ht⟩ := ih (gen.drop m) (by rw [List.length_drop]; omega)
        (fun x hx hc =>
          hall x (mem_take_mono (by omega) (mem_take_drop hx)) hc)
      refine ⟨m + k, b :: t, by omega, ?_⟩
      simp only [findLoop, he, Option.isSome_none, Bool.false_eq_true, if_false, ht,
        List.drop_drop, List.sum_cons]

lemma findLoop_short {α : Type} (condition : Option α → Bool) :
    ∀ (bs : List Nat) (gen : List (Option α)), (∀ x ∈ gen, condition x = true) →
      gen.length < bs.sum →
      findLoop condition bs gen = Except.error PyErr.stopIteration := by
  intro bs
  induction bs with
  | nil => intro gen _ h; simp at h
  | cons b bs ih =>
      intro gen hall h
      rw [List.sum_cons] at h
      by_cases hb : b ≤ gen.length
      · have hcb : ∀ x ∈ gen.take b, condition x = true := fun x hx =>
          hall x (List.take_subset _ _ hx)
        simp only [findLoop, computeBatchFind_clean condition b gen hb hcb, Option.isSome_none,
          Bool.false_eq_true, if_false,
          ih (gen.drop b) (fun x hx => hall x (List.drop_subset _ _ hx))
            (by rw [List.length_drop]; omega)]
      · simp only [findLoop, computeBatchFind_short condition b gen hall (by omega)]

/-! Claim theorems. -/

/-- C1: the specified extremal-search behavior of smallest_counterexample (return the
minimum-weight counterexample with first-seen-wins ties, or None when all candidates
pass) is the function's documented intent, but the code raises ValueError from its
sentinel initialization before pulling any candidate: evaluating the embedding at the
spec's own scenario (n = 10, candidates 0 through 9, is-even condition, identity
weight) yields the error instead of the minimum-weight counterexample 1. -/
theorem c1_smallest_sample_raises :
    smallest_counterexample 10 isEven sampleGen idWeight false =
      Except.error PyErr.valueError := rfl

/-- C2: for every n, condition, generator and weight function, both extremal searches
fail with ValueError from applying the Python builtin int to the letters of the
infinity literal; this happens before any candidate is pulled — the result is the same
for every generator, including the empty one, on which a pull would instead raise
StopIteration — and before any weight comparison, so neither function ever produces a
search outcome. -/
theorem c2_sentinel_raises {α : Type} (n : Nat) (condition : Option α → Bool)
    (generator : List (Option α)) (get_object_weight : Option α → Int)
    ( show_progress : Bool) :
    smallest_counterexample n condition generator get_object_weight show_progress =
      Except.error PyErr.valueError ∧
    greatest_counterexample n condition generator get_object_weight show_progress =
      Except.error PyErr.valueError := ⟨rfl, rfl⟩

/-- C3: with a source of at least n candidates, count_counterexamples consumes exactly
the first n candidates, reports one progress update per planned batch, and returns
exactly the number of candidates among the first n failing the condition; that count
is at most n; and the same outcome results from any partition of the n pulls into
batches. -/
theorem c3_count_correct {α : Type} (n : Nat) (condition : Option α → Bool)
    (generator : List (Option α)) ( show_progress : Bool)
    (h : n ≤ generator.length) :
    count_counterexamples n condition generator show_progress =
      Except.ok (List.countP (fun x => !condition x) (generator.take n),
        generator.drop n, listOfBatches n) ∧
    List.countP (fun x => !condition x) (generator.take n) ≤ n ∧
    ∀ bs : List Nat, bs.sum = n →
      countLoop condition bs generator =
        Except.ok (List.countP (fun x => !condition x) (generator.take n),
          generator.drop n, bs) := by
  refine ⟨?_, ?_, ?_⟩
  · have hc := countLoop_ok condition (listOfBatches n) generator
      (by rw [listOfBatches_sum]; exact h)
    rw [listOfBatches_sum] at hc
    exact hc
  · exact le_trans (List.countP_le_length _)
      (by rw [List.length_take]; exact min_le_left _ _)
  · intro bs hbs
    have hc := countLoop_ok condition bs generator (by rw [hbs]; exact h)
    rw [hbs] at hc
    exact hc

/-- Witness for C3 at a concrete input: counting over the candidates 0 through 9 with
the is-even condition succeeds with the full consumption and batch trace. -/
theorem c3_count_correct_witness :
    count_counterexamples 10 isEven sampleGen false =
      Except.ok (List.countP (fun x => !isEven x) (sampleGen.take 10),
        sampleGen.drop 10, listOfBatches 10) :=
  (c3_count_correct 10 isEven sampleGen false (by decide)).1

/-- C4 counterexample: with the two-candidate source None, 5 and the everywhere-false
condition, the first pulled candidate — the Python value None — fails the condition,
yet find_counterexample does not return it and does not stop: it keeps pulling and
returns the later candidate 5. -/
theorem c4_first_failure_not_returned :
    constFalse none = false ∧
    (find_counterexample 2 constFalse [none, some 5] false).map (fun r => r.1) =
      Except.ok (some 5) := ⟨rfl, rfl⟩

/-- C4 amended: provided additionally that no candidate among the first n is the
Python value None failing the condition, find_counterexample returns the first failing
candidate as soon as it is pulled — stopping after exactly (index of the first
failure) + 1 pulls, aborting the remainder of the current batch and of the whole
budget — and returns None after exactly n pulls when all n candidates pass. -/
theorem c4_find_first_correct {α : Type} (n : Nat) (condition : Option α → Bool)
    (generator : List (Option α)) ( show_progress : Bool)
    (hlen : n ≤ generator.length)
    (hnone : ∀ x ∈ generator.take n, condition x = false → x.isSome = true) :
    ((generator.take n).dropWhile condition = [] →
      ∃ t, find_counterexample n condition generator show_progress =
        Except.ok (none, generator.drop n, t)) ∧
    (∀ x r, (generator.take n).dropWhile condition = x :: r →
      ∃ t, find_counterexample n condition generator show_progress =
        Except.ok (x, generator.drop
          (((generator.take n).takeWhile condition).length + 1), t)) := by
  constructor
  · intro hd
    have hall : ∀ x ∈ generator.take n, condition x = true :=
      List.dropWhile_eq_nil_iff.mp hd
    obtain ⟨t, ht⟩ := findLoop_clean condition (listOfBatches n) generator
      (by rw [listOfBatches_sum]; exact hlen) (by rw [listOfBatches_sum]; exact hall)
    rw [listOfBatches_sum] at ht
    exact ⟨t, ht⟩
  · intro x r hd
    have hx : x.isSome = true :=
      hnone x (mem_of_dropWhile_cons hd) (dropWhile_head_false hd)
    obtain ⟨t, ht⟩ := findLoop_found condition (listOfBatches n) generator x r
      (by rw [listOfBatches_sum]; exact hlen) (by rw [listOfBatches_sum]; exact hd) hx
    rw [listOfBatches_sum] at ht
    exact ⟨t, ht⟩

/-- Witness for the amended C4: on the candidates 0 through 9 with is-even, the first
failing candidate 1 is returned, right after the pull following the even prefix. -/
theorem c4_find_first_correct_witness :
    ∃ t, find_counterexample 10 isEven sampleGen false =
      Except.ok (some 1,
        sampleGen.drop (((sampleGen.take 10).takeWhile isEven).length + 1), t) :=
  (c4_find_first_correct 10 isEven sampleGen false (by decide) (by decide)).2 (some 1)
    [some 2, some 3, some 4, some 5, some 6, some 7, some 8, some 9] (by decide)

/-- C5: for every n, the batch plan shared by all four searches has exactly 100
entries (also when n < 100, where trailing entries are 0), sums to n, is ordered with
the larger sizes first, and any two sizes differ by at most 1. -/
theorem c5_batch_plan (n : Nat) :
    (listOfBatches n).length = 100 ∧
    (listOfBatches n).sum = n ∧
    List.Pairwise (fun a b => b ≤ a) (listOfBatches n) ∧
    ∀ a ∈ listOfBatches n, ∀ b ∈ listOfBatches n, a ≤ b + 1 := by
  refine ⟨listOfBatches_length n, listOfBatches_sum n, ?_, ?_⟩
  · rw [listOfBatches, List.pairwise_append]
    refine ⟨pairwise_ge_replicate _, pairwise_ge_replicate _, ?_⟩
    intro a ha b hb
    rw [List.eq_of_mem_replicate ha, List.eq_of_mem_replicate hb]
    omega
  · intro a ha b hb
    rw [listOfBatches] at ha hb
    rcases List.mem_append.mp ha with h1 | h1 <;>
      rcases List.mem_append.mp hb with h2 | h2 <;>
        rw [List.eq_of_mem_replicate h1, List.eq_of_mem_replicate h2] <;> omega

/-- C6: the claim that smallest_counterexample and greatest_counterexample pull from
the source exactly n times is the documented intent, but the code raises ValueError
from the sentinel initialization before the first pull: at n = 1, a source with plenty
of candidates produces exactly the same ValueError as the empty source, on which the
first pull would instead have raised StopIteration — so not a single candidate is
pulled. -/
theorem c6_extremal_pulls_zero :
    smallest_counterexample 1 isEven sampleGen idWeight false =
      Except.error PyErr.valueError ∧
    smallest_counterexample 1 isEven ([] : List (Option Nat)) idWeight false =
      Except.error PyErr.valueError ∧
    greatest_counterexample 1 isEven sampleGen idWeight false =
      Except.error PyErr.valueError ∧
    greatest_counterexample 1 isEven ([] : List (Option Nat)) idWeight false =
      Except.error PyErr.valueError := ⟨rfl, rfl, rfl, rfl⟩

/-- C7 counterexample: the claim says every search on a source with fewer than n
candidates fails with the stream-exhaustion error, but a source of 3 candidates with
n = 10 makes find_counterexample return the counterexample 1 normally, after pulling
only two candidates — not an error. -/
theorem c7_short_source_find_succeeds :
    find_counterexample 10 isEven shortGen false =
      Except.ok (some 1, [some 2], [1, 1]) ∧
    find_counterexample 10 isEven shortGen false ≠
      Except.error PyErr.stopIteration := by
  constructor
  · rfl
  · intro h
    rw [show find_counterexample 10 isEven shortGen false =
      Except.ok (some 1, [some 2], [1, 1]) from rfl] at h
    exact Except.noConfusion h

/-- C7 amended: when the source yields fewer than n candidates,
count_counterexamples fails with the stream-exhaustion error and returns no partial
count; find_counterexample also fails with the stream-exhaustion error provided the
condition holds on every available candidate — without that proviso it need not fail,
as the counterexample shows; the two extremal searches instead fail with the
ValueError of their sentinel initialization before any pull. In every failing case
the error carries no partial result. -/
theorem c7_short_source_errors {α : Type} (n : Nat) (condition : Option α → Bool)
    (generator : List (Option α)) (get_object_weight : Option α → Int)
    ( show_progress : Bool) (hshort : generator.length < n) :
    count_counterexamples n condition generator show_progress =
      Except.error PyErr.stopIteration ∧
    ((∀ x ∈ generator, condition x = true) →
      find_counterexample n condition generator show_progress =
        Except.error PyErr.stopIteration) ∧
    smallest_counterexample n condition generator get_object_weight show_progress =
      Except.error PyErr.valueError ∧
    greatest_counterexample n condition generator get_object_weight show_progress =
      Except.error PyErr.valueError := by
  refine ⟨?_, ?_, rfl, rfl⟩
  · exact countLoop_short condition (listOfBatches n) generator
      (by rw [listOfBatches_sum]; exact hshort)
  · intro hall
    exact findLoop_short condition (listOfBatches n) generator hall
      (by rw [listOfBatches_sum]; exact hshort)

/-- Witness for the amended C7: with the 3-candidate source and n = 10, counting fails
with the stream-exhaustion error, and so does the first-counterexample search when
every available candidate passes. -/
theorem c7_short_source_errors_witness :
    count_counterexamples 10 isEven shortGen false =
      Except.error PyErr.stopIteration ∧
    find_counterexample 10 allTrue shortGen false =
      Except.error PyErr.stopIteration := by
  have h1 := c7_short_source_errors 10 isEven shortGen idWeight false (by decide)
  have h2 := c7_short_source_errors 10 allTrue shortGen idWeight false (by decide)
  exact ⟨h1.1, h2.2.1 (by decide)⟩

/-- C8 counterexample: the batching is observable. With the two-candidate source
None, 5 and the everywhere-false condition, the code returns the candidate 5, while
the unbatched left-to-right scan of the first 2 candidates yields the first failing
candidate, the Python value None. -/
theorem c8_partition_observable :
    (find_counterexample 2 constFalse [none, some 5] false).map (fun r => r.1) =
      Except.ok (some 5) ∧
    unbatchedScan constFalse 2 [none, some 5] = none ∧
    some 5 ≠ (none : Option Nat) := ⟨rfl, rfl, by decide⟩

/-- C8 amended: provided no candidate among the first n is the Python value None
failing the condition, the value returned by find_counterexample equals the unbatched
left-to-right scan of the first n candidates for the first failing one, and indeed
every partition of the budget into batches gives that same value. -/
theorem c8_find_refines_scan {α : Type} (n : Nat) (condition : Option α → Bool)
    (generator : List (Option α)) ( show_progress : Bool)
    (hlen : n ≤ generator.length)
    (hnone : ∀ x ∈ generator.take n, condition x = false → x.isSome = true) :
    (find_counterexample n condition generator show_progress).map (fun r => r.1) =
      Except.ok (unbatchedScan condition n generator) ∧
    ∀ bs : List Nat, bs.sum = n →
      (findLoop condition bs generator).map (fun r => r.1) =
        Except.ok (unbatchedScan condition n generator) := by
  have main : ∀ bs : List Nat, bs.sum = n →
      (findLoop condition bs generator).map (fun r => r.1) =
        Except.ok (unbatchedScan condition n generator) := by
    intro bs hbs
    unfold unbatchedScan
    rw [find_not_eq_head_dropWhile]
    cases hd : (generator.take n).dropWhile condition with
    | nil =>
        obtain ⟨t, ht⟩ := findLoop_clean condition bs generator (by rw [hbs]; exact hlen)
          (by rw [hbs]; exact List.dropWhile_eq_nil_iff.mp hd)
        rw [hbs] at ht
        rw [ht]
        rfl
    | cons x r =>
        have hx : x.isSome = true :=
          hnone x (mem_of_dropWhile_cons hd) (dropWhile_head_false hd)
        obtain ⟨t, ht⟩ := findLoop_found condition bs generator x r
          (by rw [hbs]; exact hlen) (by rw [hbs]; exact hd) hx
        rw [hbs] at ht
        rw [ht]
        rfl
  exact ⟨main (listOfBatches n) (listOfBatches_sum n), main⟩

/-- Witness for the amended C8 at the candidates 0 through 9 with is-even: the
returned value equals the unbatched scan result. -/
theorem c8_find_refines_scan_witness :
    (find_counterexample 10 isEven sampleGen false).map (fun r => r.1) =
      Except.ok (unbatchedScan isEven 10 sampleGen) :=
  (c8_find_refines_scan 10 isEven sampleGen false (by decide) (by decide)).1

/-- C9: each of the four search functions gives the same complete observable output
(return value, remaining source, progress updates) whether show_progress is true or
false — the flag is accepted and never read — and progress reporting runs
unconditionally: under either flag value, a full counting run reports exactly the
planned batch sizes. -/
theorem c9_flag_immaterial {α : Type} (n : Nat) (condition : Option α → Bool)
    (generator : List (Option α)) (get_object_weight : Option α → Int) :
    find_counterexample n condition generator true =
      find_counterexample n condition generator false ∧
    count_counterexamples n condition generator true =
      count_counterexamples n condition generator false ∧
    smallest_counterexample n condition generator get_object_weight true =
      smallest_counterexample n condition generator get_object_weight false ∧
    greatest_counterexample n condition generator get_object_weight true =
      greatest_counterexample n condition generator get_object_weight false ∧
    (n ≤ generator.length → ∀ sp : Bool,
      count_counterexamples n condition generator sp =
        Except.ok (List.countP (fun x => !condition x) (generator.take n),
          generator.drop n, listOfBatches n)) := by
  refine ⟨rfl, rfl, rfl, rfl, ?_⟩
  intro h sp
  have hc := countLoop_ok condition (listOfBatches n) generator
    (by rw [listOfBatches_sum]; exact h)
  rw [listOfBatches_sum] at hc
  exact hc

/-- Witness for C9: at n = 10 on the candidates 0 through 9, the counting run under
the true flag reports exactly the planned batch sizes. -/
theorem c9_flag_immaterial_witness :
    count_counterexamples 10 isEven sampleGen true =
      Except.ok (List.countP (fun x => !isEven x) (sampleGen.take 10),
        sampleGen.drop 10, listOfBatches 10) :=
  (c9_flag_immaterial 10 isEven sampleGen idWeight).2.2.2.2 (by decide) true

/-- C10: find_counterexample conflates the Python value None with the absence of a
counterexample: when every failing candidate among the first n is None, the per-batch
None return never triggers the global early exit, the search keeps consuming the
subsequent batches, and the final value is None — identical to the value produced by
the same search under a condition that never fails, so a run whose only
counterexamples are None is indistinguishable from the not-found outcome. -/
theorem c10_none_indistinguishable {α : Type} (n : Nat) (condition : Option α → Bool)
    (generator : List (Option α)) ( show_progress : Bool)
    (hlen : n ≤ generator.length)
    (hall : ∀ x ∈ generator.take n, condition x = false → x = none) :
    (find_counterexample n condition generator show_progress).map (fun r => r.1) =
      Except.ok none ∧
    (find_counterexample n condition generator show_progress).map (fun r => r.1) =
      (find_counterexample n (fun _ => true) generator show_progress).map
        (fun r => r.1) := by
  obtain ⟨k, t, hk, ht⟩ := findLoop_none condition (listOfBatches n) generator
    (by rw [listOfBatches_sum]; exact hlen) (by rw [listOfBatches_sum]; exact hall)
  obtain ⟨t2, ht2⟩ := findLoop_clean (fun _ => true) (listOfBatches n) generator
    (by rw [listOfBatches_sum]; exact hlen) (fun x _ => rfl)
  simp only [find_counterexample]
  rw [ht, ht2]
  exact ⟨rfl, rfl⟩

/-- Witness for C10: with source some 0, None, some 2 and the is-Some condition, whose
only counterexample is None, the search returns None. -/
theorem c10_none_indistinguishable_witness :
    (find_counterexample 3 isSomeCond [some 0, none, some 2] false).map (fun r => r.1) =
      Except.ok none :=
  (c10_none_indistinguishable 3 isSomeCond [some 0, none, some 2] false (by decide)
    (by decide)).1
